import Mathlib

/-!
Verification development for the skill-digest repository: a daily
content-curation pipeline (fetch candidate skills, select one unpublished
item per day, generate an article, publish it) driven by
`scripts/daily-skill-digest.sh` and triggered by a Cloudflare Worker
(`cloudflare-worker/worker.js`).

The shell driver and the worker are embedded from the source.  The Python
scripts (`select_daily.py`, `fetch_skills.py`) are not part of the source
tree; the selection and ledger operations they implement are modelled from
the design spec and marked as such in their doc comments.
-/

/-- A candidate skill item, as described by the data model: a stable
`identity` key (canonical repository URL), a display `name`, a `category`
tag, an optional last-update timestamp, and an authority flag (officially
maintained vs community). -/
structure CandidateItem where
  identity : String
  name : String
  category : String
  lastUpdatedAt : Option Nat
  official : Bool
  deriving DecidableEq, Repr

/-- One entry of the publication ledger (`data/published_skills.json`):
identity, category and calendar date of publication. -/
structure PublicationRecord where
  identity : String
  category : String
  publishedAt : String
  deriving DecidableEq, Repr

/-- The publication ledger: an ordered sequence of publication records. -/
abbrev Ledger := List PublicationRecord

/-- Modelled from the spec: `contains(identity)` of the Publication Ledger
(`select_daily.py` is not in the source tree) — whether some record of the
ledger carries the given identity. -/
def ledgerContains (l : Ledger) (id : String) : Bool :=
  l.any (fun r => r.identity == id)

/-- Modelled from the spec: the most recently published record, chosen by
`publishedAt` descending (later records win ties, matching append order). -/
def mostRecent : Ledger → Option PublicationRecord
  | [] => none
  | r :: rs => some (rs.foldl (fun best x => if best.publishedAt ≤ x.publishedAt then x else best) r)

/-- Modelled from the spec: `mostRecentCategory()` of the Publication
Ledger, used by the Selector's category-diversity rule. -/
def mostRecentCategory (l : Ledger) : Option String :=
  (mostRecent l).map (·.category)

/-- Modelled from the spec: `markPublished(identity, category, date)`
(`select_daily.py --mark-published` is not in the source tree) — append a
record unless one with the same identity already exists. -/
def markPublished (l : Ledger) (id cat date : String) : Ledger :=
  if ledgerContains l id then l else l ++ [⟨id, cat, date⟩]

/-- Modelled from the spec: the content-type classification filter — items
whose category marks them as a tutorial, documentation or blog post are
not installable skills and are excluded. -/
def isRealSkill (i : CandidateItem) : Bool :=
  !(i.category == "tutorial" || i.category == "documentation" || i.category == "blog")

/-- Modelled from the spec: the eligibility filter — not previously
published (identity absent from the ledger) and passing the content-type
classification. -/
def eligibleItem (l : Ledger) (i : CandidateItem) : Bool :=
  !(ledgerContains l i.identity) && isRealSkill i

/-- Authority tier score: officially maintained items rank above community
items. -/
def authScore (i : CandidateItem) : Nat :=
  if i.official then 1 else 0

/-- Freshness score: more recent `lastUpdatedAt` ranks higher; an unknown
timestamp ranks below every known one. -/
def freshScore (i : CandidateItem) : Nat :=
  match i.lastUpdatedAt with
  | none => 0
  | some t => t + 1

/-- Category-diversity score relative to the most recently published
category: a differing category ranks above a matching one; with no prior
record every item scores alike. -/
def divScore (prev : Option String) (i : CandidateItem) : Nat :=
  match prev with
  | none => 1
  | some c => if i.category == c then 0 else 1

/-- The ranking key of an item: authority tier, then freshness, then
category diversity, compared lexicographically. -/
def rkey (prev : Option String) (i : CandidateItem) : Nat × Nat × Nat :=
  (authScore i, freshScore i, divScore prev i)

/-- Strict lexicographic order on ranking keys. -/
def keyLT (x y : Nat × Nat × Nat) : Prop :=
  x.1 < y.1 ∨ (x.1 = y.1 ∧ (x.2.1 < y.2.1 ∨ (x.2.1 = y.2.1 ∧ x.2.2 < y.2.2)))

instance (x y : Nat × Nat × Nat) : Decidable (keyLT x y) := by
  unfold keyLT
  infer_instance

/-- Modelled from the spec: "`a` ranks at least as high as `b`" — higher
ranking key first, remaining ties broken by `identity` in lexicographic
order. -/
def rankLE (prev : Option String) (a b : CandidateItem) : Bool :=
  decide (keyLT (rkey prev b) (rkey prev a) ∨
    (rkey prev a = rkey prev b ∧ a.identity ≤ b.identity))

/-- Modelled from the spec: pick the highest-ranked item of a list (the
fold keeps the incumbent on ties, which under distinct identities never
arise). Returns `none` exactly on the empty list. -/
def selectBest (prev : Option String) : List CandidateItem → Option CandidateItem
  | [] => none
  | i :: is => some (is.foldl (fun best x => if rankLE prev best x then best else x) i)

/-- Modelled from the spec: `selectForDate(date, catalog, ledger)` of the
Selector (`select_daily.py` is not in the source tree) — filter the
catalog by eligibility, then pick the highest-ranked item under the
authority / freshness / diversity / identity ordering. -/
def selectForDate (_date : String) (catalog : List CandidateItem) (ledger : Ledger) :
    Option CandidateItem :=
  selectBest (mostRecentCategory ledger) (catalog.filter (eligibleItem ledger))

/-- Modelled from the spec: the per-date selection log of the re-entry
rule — a prior selection recorded for the same date is returned unchanged
instead of re-running the ranking. -/
def selectWithLog (log : List (String × CandidateItem)) (date : String)
    (catalog : List CandidateItem) (ledger : Ledger) : Option CandidateItem :=
  match log.lookup date with
  | some i => some i
  | none => selectForDate date catalog ledger

/-- Modelled from the spec: record a selection in the per-date selection
log (first selection for a date wins; later runs on the same date keep the
logged entry). -/
def logSelection (log : List (String × CandidateItem)) (date : String)
    (i : CandidateItem) : List (String × CandidateItem) :=
  match log.lookup date with
  | some _ => log
  | none => (date, i) :: log

/-- The filename sanitization of `daily-skill-digest.sh`: spaces and
slashes become dashes, then every character outside `[a-zA-Z0-9_-]` is
dropped. -/
def sanitizeName (s : String) : String :=
  String.mk (((s.toList.map (fun c => if c = ' ' ∨ c = '/' then '-' else c))).filter
    (fun c => c.isAlphanum || c = '_' || c = '-'))

/-- The artifact filename of `daily-skill-digest.sh`:
`$(date +%Y-%m-%d)-${SAFE_SKILL_NAME}.md`, built from the calendar date
and the sanitized skill name. -/
def articleFileName (date name : String) : String :=
  date ++ "-" ++ sanitizeName name ++ ".md"

/-- The pipeline stages of one driver run. -/
inductive Stage
  | fetching
  | selecting
  | generating
  | publishing
  | marking
  deriving DecidableEq, Repr

/-- The outcome of one driver run: exit 0 or exit 1 at some stage. -/
inductive Outcome
  | success
  | failed (s : Stage)
  deriving DecidableEq, Repr

/-- The persisted state the driver reads and writes across runs: the skill
cache (`data/skill_cache.json`), the publication ledger
(`data/published_skills.json`) and the per-date selection log. -/
structure DriverState where
  cache : Option (List CandidateItem)
  ledger : Ledger
  selLog : List (String × CandidateItem)
  deriving Repr

/-- The external inputs of one driver run: the calendar date, the result
of the catalog refresh (`none` = fetch failed), whether article generation
produced the output file, and whether the optional WeChat publish step is
available and succeeds. -/
structure RunEnv where
  date : String
  fetchResult : Option (List CandidateItem)
  genOk : Bool
  publishAvailable : Bool
  publishOk : Bool
  deriving Repr

/-- The observable trace of one driver run. -/
structure RunTrace where
  outcome : Outcome
  fetchWarning : Bool
  catalogUsed : List CandidateItem
  selected : Option CandidateItem
  articlePath : Option String
  markExecuted : Bool
  publishCalled : Bool
  deriving Repr

/-- The catalog a driver run works with: the refreshed catalog when the
fetch succeeded, the prior cached catalog otherwise (empty when neither
exists). -/
def driverCatalog (env : RunEnv) (s : DriverState) : List CandidateItem :=
  (env.fetchResult.or s.cache).getD []

/-- One run of `daily-skill-digest.sh`: Step 1 refresh (falling back to
the cached catalog with a warning on failure, exiting 1 when no skills are
available), Step 2 selection (exiting 1 when no skill is selected), Step 3
article generation (exiting 1 when the article file is missing), Step 4
mark-published, Step 5 optional WeChat publish whose failure only logs a
warning, then exit 0. -/
def driverRun (env : RunEnv) (s : DriverState) : RunTrace × DriverState :=
  let warn : Bool := env.fetchResult.isNone
  let s1 : DriverState := { s with cache := env.fetchResult.or s.cache }
  let catalog : List CandidateItem := driverCatalog env s
  if catalog.length = 0 then
    ({ outcome := .failed .fetching, fetchWarning := warn, catalogUsed := catalog,
       selected := none, articlePath := none, markExecuted := false,
       publishCalled := false }, s1)
  else
    match selectWithLog s.selLog env.date catalog s.ledger with
    | none =>
      ({ outcome := .failed .selecting, fetchWarning := warn, catalogUsed := catalog,
         selected := none, articlePath := none, markExecuted := false,
         publishCalled := false }, s1)
    | some item =>
      let s2 : DriverState := { s1 with selLog := logSelection s.selLog env.date item }
      if env.genOk then
        let path := articleFileName env.date item.name
        let s3 : DriverState :=
          { s2 with ledger := markPublished s2.ledger item.identity item.category env.date }
        ({ outcome := .success, fetchWarning := warn, catalogUsed := catalog,
           selected := some item, articlePath := some path, markExecuted := true,
           publishCalled := env.publishAvailable }, s3)
      else
        ({ outcome := .failed .generating, fetchWarning := warn, catalogUsed := catalog,
           selected := some item, articlePath := none, markExecuted := false,
           publishCalled := false }, s2)

/-- The environment of the Cloudflare Worker: the optional `GITHUB_TOKEN`
variable and the behaviour of the GitHub API call (`none` = the `fetch`
call throws with the given message absent; otherwise the response status
and body text). -/
structure WorkerEnv where
  githubToken : Option String
  netThrows : Option String
  respStatus : Nat
  respText : String
  deriving Repr

/-- The repository-dispatch request `triggerWorkflow` issues to the GitHub
API. -/
structure DispatchRequest where
  repo : String
  eventType : String
  authToken : String
  deriving DecidableEq, Repr

/-- The result object `triggerWorkflow` returns (the wall-clock timestamp
of the success branch is omitted from the model). -/
structure TriggerResult where
  success : Bool
  message : Option String
  status : Option Nat
  error : Option String
  deriving DecidableEq, Repr

/-- `triggerWorkflow(env)` of `worker.js`: with no `GITHUB_TOKEN` it
returns a failure result without contacting the network; otherwise it
POSTs a `daily-skill-digest` repository-dispatch to
`lairulan/skill-digest`, reports success exactly on HTTP 204, reports the
status and body otherwise, and catches any thrown error into a failure
result. The second component is the request issued, if any. -/
def triggerWorkflow (env : WorkerEnv) : TriggerResult × Option DispatchRequest :=
  match env.githubToken with
  | none =>
    ({ success := false, message := none, status := none,
       error := some "GITHUB_TOKEN not configured" }, none)
  | some tok =>
    let req : DispatchRequest := ⟨"lairulan/skill-digest", "daily-skill-digest", tok⟩
    match env.netThrows with
    | some msg =>
      ({ success := false, message := none, status := none, error := some msg }, some req)
    | none =>
      if env.respStatus = 204 then
        ({ success := true, message := some "Workflow triggered successfully",
           status := none, error := none }, some req)
      else
        ({ success := false, message := none, status := some env.respStatus,
           error := some env.respText }, some req)

/-- The `scheduled` handler of `worker.js`: it runs `triggerWorkflow(env)`
and logs the result. -/
def scheduledHandler (env : WorkerEnv) : TriggerResult × Option DispatchRequest :=
  triggerWorkflow env

/-- A response of the worker's `fetch` handler: either the JSON-serialized
trigger result (on `/trigger`) or the static info page. -/
inductive FetchResponse
  | triggered (r : TriggerResult)
  | info
  deriving DecidableEq, Repr

/-- The `fetch` handler of `worker.js`: on the `/trigger` path it runs
`triggerWorkflow(env)` and returns its result; on any other path it
returns the static info response and issues no request. -/
def fetchHandler (path : String) (env : WorkerEnv) : FetchResponse × Option DispatchRequest :=
  if path = "/trigger" then
    ((.triggered (triggerWorkflow env).1), (triggerWorkflow env).2)
  else
    (.info, none)

/-- A catalog has pairwise-distinct identities (the CatalogCache
invariant: `identity` is unique within the cache). -/
def nodupIds (l : List CandidateItem) : Prop :=
  (l.map (·.identity)).Nodup

instance (l : List CandidateItem) : Decidable (nodupIds l) := by
  unfold nodupIds
  infer_instance

/-- The ledger invariant: at most one record per identity. -/
def uniqueLedger (l : Ledger) : Prop :=
  (l.map (·.identity)).Nodup

instance (l : Ledger) : Decidable (uniqueLedger l) := by
  unfold uniqueLedger
  infer_instance

/-- A concrete candidate skill used in witnesses. -/
def skillAlpha : CandidateItem :=
  ⟨"https://github.com/x/alpha", "alpha", "tools", some 5, true⟩

/-- A concrete candidate skill whose identity is already in `ledgerAlpha`. -/
def skillPub : CandidateItem :=
  ⟨"https://github.com/x/pub", "pub", "tools", some 4, false⟩

/-- The same repository as `skillAlpha` under a different display name. -/
def skillRenamed : CandidateItem :=
  ⟨"https://github.com/x/alpha", "alpha renamed", "tools", some 5, true⟩

/-- A concrete ledger holding a record for `skillAlpha`'s identity. -/
def ledgerAlpha : Ledger :=
  [⟨"https://github.com/x/alpha", "tools", "2026-01-01"⟩]

/-- The empty driver state: no cache, no ledger, no selection log. -/
def emptyState : DriverState :=
  ⟨none, [], []⟩

/-- A driver state whose ledger already records `skillPub`'s identity. -/
def statePub : DriverState :=
  ⟨none, [⟨"https://github.com/x/pub", "tools", "2026-01-01"⟩], []⟩

/-- A driver state with a cached one-item catalog and nothing else. -/
def stateCached : DriverState :=
  ⟨some [skillAlpha], [], []⟩

/-- A run whose fetch succeeds, generation succeeds, and WeChat publish is
attempted but fails. -/
def envPubFail : RunEnv :=
  ⟨"2026-01-02", some [skillAlpha], true, true, false⟩

/-- A run whose catalog holds only an already-published skill. -/
def envNoEligible : RunEnv :=
  ⟨"2026-01-02", some [skillPub], true, true, true⟩

/-- A run whose article generation fails. -/
def envGenFail : RunEnv :=
  ⟨"2026-01-02", some [skillAlpha], false, false, false⟩

/-- A retry run on the same date as `envGenFail`, with generation now
succeeding. -/
def envRetry : RunEnv :=
  ⟨"2026-01-02", some [skillAlpha], true, false, false⟩

/-- A run whose fetch fails (to exercise the cached-catalog fallback). -/
def envFetchFail : RunEnv :=
  ⟨"2026-01-02", none, true, false, false⟩

/-- A successful run selecting `skillAlpha`, with publishing disabled. -/
def envNameA : RunEnv :=
  ⟨"2026-01-02", some [skillAlpha], true, false, false⟩

/-- A run on the same date whose catalog carries the same repository as
`skillAlpha` under a different display name. -/
def envNameB : RunEnv :=
  ⟨"2026-01-02", some [skillRenamed], true, false, false⟩

/-- A worker environment with a token and a 204 response. -/
def workerEnvOk : WorkerEnv :=
  ⟨some "tok", none, 204, ""⟩

/-- A worker environment with no `GITHUB_TOKEN`. -/
def workerEnvNoToken : WorkerEnv :=
  ⟨none, none, 204, ""⟩

lemma keyLT_trans {x y z : Nat × Nat × Nat} (h1 : keyLT x y) (h2 : keyLT y z) : keyLT x z := by
  obtain ⟨x1, x2, x3⟩ := x
  obtain ⟨y1, y2, y3⟩ := y
  obtain ⟨z1, z2, z3⟩ := z
  simp only [keyLT] at *
  omega

lemma keyLT_irrefl (x : Nat × Nat × Nat) : ¬ keyLT x x := by
  obtain ⟨x1, x2, x3⟩ := x
  simp only [keyLT]
  omega

lemma keyLT_asymm {x y : Nat × Nat × Nat} (h1 : keyLT x y) (h2 : keyLT y x) : False := by
  obtain ⟨x1, x2, x3⟩ := x
  obtain ⟨y1, y2, y3⟩ := y
  simp only [keyLT] at *
  omega

lemma keyLT_trichotomy (x y : Nat × Nat × Nat) : keyLT x y ∨ x = y ∨ keyLT y x := by
  obtain ⟨x1, x2, x3⟩ := x
  obtain ⟨y1, y2, y3⟩ := y
  simp only [keyLT, Prod.mk.injEq]
  omega

lemma rankLE_iff {prev : Option String} {a b : CandidateItem} :
    rankLE prev a b = true ↔
      (keyLT (rkey prev b) (rkey prev a) ∨
        (rkey prev a = rkey prev b ∧ a.identity ≤ b.identity)) := by
  simp [rankLE]

lemma rankLE_refl (prev : Option String) (a : CandidateItem) : rankLE prev a a = true := by
  rw [rankLE_iff]
  exact Or.inr ⟨rfl, le_refl _⟩

lemma rankLE_total (prev : Option String) (a b : CandidateItem) :
    rankLE prev a b = true ∨ rankLE prev b a = true := by
  rw [rankLE_iff, rankLE_iff]
  rcases keyLT_trichotomy (rkey prev a) (rkey prev b) with h | h | h
  · exact Or.inr (Or.inl h)
  · rcases le_total a.identity b.identity with hle | hle
    · exact Or.inl (Or.inr ⟨h, hle⟩)
    · exact Or.inr (Or.inr ⟨h.symm, hle⟩)
  · exact Or.inl (Or.inl h)

lemma rankLE_trans {prev : Option String} {a b c : CandidateItem}
    (h1 : rankLE prev a b = true) (h2 : rankLE prev b c = true) :
    rankLE prev a c = true := by
  rw [rankLE_iff] at h1 h2 ⊢
  rcases h1 with h1 | ⟨he1, hi1⟩
  · rcases h2 with h2 | ⟨he2, _⟩
    · exact Or.inl (keyLT_trans h2 h1)
    · exact Or.inl (he2 ▸ h1)
  · rcases h2 with h2 | ⟨he2, hi2⟩
    · exact Or.inl (he1 ▸ h2)
    · exact Or.inr ⟨he1.trans he2, hi1.trans hi2⟩

lemma rankLE_antisymm {prev : Option String} {a b : CandidateItem}
    (h1 : rankLE prev a b = true) (h2 : rankLE prev b a = true) :
    a.identity = b.identity := by
  rw [rankLE_iff] at h1 h2
  rcases h1 with h1 | ⟨he1, hi1⟩
  · rcases h2 with h2 | ⟨he2, _⟩
    · exact absurd h1 (fun h => keyLT_asymm h h2)
    · exact absurd (he2 ▸ h1) (keyLT_irrefl _)
  · rcases h2 with h2 | ⟨_, hi2⟩
    · exact absurd (he1 ▸ h2) (keyLT_irrefl _)
    · exact le_antisymm hi1 hi2

lemma foldBest_mem (prev : Option String) (is : List CandidateItem) (i : CandidateItem) :
    is.foldl (fun best x => if rankLE prev best x then best else x) i ∈ i :: is := by
  induction is generalizing i with
  | nil => simp
  | cons x xs ih =>
    simp only [List.foldl_cons]
    have h := ih (if rankLE prev i x then i else x)
    have hsub : (if rankLE prev i x then i else x) :: xs ⊆ i :: x :: xs := by
      intro y hy
      rcases List.mem_cons.mp hy with hy | hy
      · subst hy
        by_cases hc : rankLE prev i x = true
        · simp [hc]
        · simp [hc]
      · exact List.mem_cons_of_mem _ (List.mem_cons_of_mem _ hy)
    exact hsub h

lemma foldBest_dom (prev : Option String) (is : List CandidateItem) (i : CandidateItem) :
    ∀ y ∈ i :: is,
      rankLE prev (is.foldl (fun best x => if rankLE prev best x then best else x) i) y = true := by
  induction is generalizing i with
  | nil =>
    intro y hy
    simp only [List.mem_singleton] at hy
    subst hy
    exact rankLE_refl prev _
  | cons x xs ih =>
    intro y hy
    simp only [List.foldl_cons]
    set j := if rankLE prev i x then i else x with hj
    have hdom := ih j
    have hji : rankLE prev j i = true := by
      by_cases hc : rankLE prev i x = true
      · rw [hj, hc, if_pos rfl]
        exact rankLE_refl prev i
      · have : rankLE prev x i = true := by
          rcases rankLE_total prev i x with h | h
          · exact absurd h hc
          · exact h
        rw [hj, eq_false_of_ne_true hc]
        simpa using this
    have hjx : rankLE prev j x = true := by
      by_cases hc : rankLE prev i x = true
      · rw [hj, hc, if_pos rfl]
        exact hc
      · rw [hj, eq_false_of_ne_true hc]
        simpa using rankLE_refl prev x
    rcases List.mem_cons.mp hy with hy | hy
    · subst hy
      exact rankLE_trans (hdom j (List.mem_cons_self _ _)) hji
    · rcases List.mem_cons.mp hy with hy | hy
      · subst hy
        exact rankLE_trans (hdom j (List.mem_cons_self _ _)) hjx
      · exact hdom y (List.mem_cons_of_mem _ hy)

lemma selectBest_mem {prev : Option String} {l : List CandidateItem} {m : CandidateItem}
    (h : selectBest prev l = some m) : m ∈ l := by
  cases l with
  | nil => simp [selectBest] at h
  | cons i is =>
    simp only [selectBest, Option.some.injEq] at h
    exact h ▸ foldBest_mem prev is i

lemma selectBest_dom {prev : Option String} {l : List CandidateItem} {m : CandidateItem}
    (h : selectBest prev l = some m) : ∀ y ∈ l, rankLE prev m y = true := by
  cases l with
  | nil => simp [selectBest] at h
  | cons i is =>
    simp only [selectBest, Option.some.injEq] at h
    exact h ▸ foldBest_dom prev is i

lemma selectBest_unique {prev : Option String} {l : List CandidateItem} {m m' : CandidateItem}
    (hm : m ∈ l) (hm' : m' ∈ l)
    (hd : ∀ y ∈ l, rankLE prev m y = true) (hd' : ∀ y ∈ l, rankLE prev m' y = true)
    (hnd : nodupIds l) : m = m' := by
  have h1 : rankLE prev m m' = true := hd m' hm'
  have h2 : rankLE prev m' m = true := hd' m hm
  have hid : m.identity = m'.identity := rankLE_antisymm h1 h2
  exact List.inj_on_of_nodup_map hnd hm hm' hid

lemma selectBest_eq_none {prev : Option String} {l : List CandidateItem} :
    selectBest prev l = none ↔ l = [] := by
  cases l with
  | nil => simp [selectBest]
  | cons i is => simp [selectBest]

lemma selectBest_perm {prev : Option String} {l l' : List CandidateItem}
    (hp : l.Perm l') (hnd : nodupIds l) : selectBest prev l = selectBest prev l' := by
  cases he : selectBest prev l with
  | none =>
    have : l = [] := selectBest_eq_none.mp he
    subst this
    have : l' = [] := hp.symm.eq_nil
    simp [this, selectBest]
  | some m =>
    cases he' : selectBest prev l' with
    | none =>
      have : l' = [] := selectBest_eq_none.mp he'
      subst this
      have : l = [] := hp.eq_nil
      simp [this, selectBest] at he
    | some m' =>
      congr 1
      have hm : m ∈ l := selectBest_mem he
      have hm' : m' ∈ l := hp.symm.subset (selectBest_mem he')
      have hd : ∀ y ∈ l, rankLE prev m y = true := selectBest_dom he
      have hd' : ∀ y ∈ l, rankLE prev m' y = true := fun y hy =>
        selectBest_dom he' y (hp.subset hy)
      exact selectBest_unique hm hm' hd hd' hnd

lemma nodupIds_filter {l : List CandidateItem} (p : CandidateItem → Bool)
    (hnd : nodupIds l) : nodupIds (l.filter p) := by
  unfold nodupIds at *
  exact List.Nodup.sublist (List.Sublist.map _ (List.filter_sublist l)) hnd

lemma markPublished_noop {l : Ledger} {id : String} (h : ledgerContains l id = true)
    (cat date : String) : markPublished l id cat date = l := by
  unfold markPublished
  rw [if_pos h]

lemma ledgerContains_markPublished (l : Ledger) (id cat date : String) :
    ledgerContains (markPublished l id cat date) id = true := by
  unfold markPublished
  by_cases h : ledgerContains l id = true
  · rw [if_pos h]
    exact h
  · rw [if_neg h]
    unfold ledgerContains
    simp

lemma markPublished_unique {l : Ledger} (h : uniqueLedger l) (id cat date : String) :
    uniqueLedger (markPublished l id cat date) := by
  unfold markPublished
  by_cases hc : ledgerContains l id = true
  · rw [if_pos hc]
    exact h
  · rw [if_neg hc]
    unfold uniqueLedger at *
    rw [List.map_append]
    rw [List.nodup_append]
    refine ⟨h, by simp, ?_⟩
    intro a ha hb
    simp only [List.map_cons, List.map_nil, List.mem_singleton] at hb
    subst hb
    apply hc
    unfold ledgerContains
    rw [List.any_eq_true]
    rcases List.mem_map.mp ha with ⟨r, hr, hid⟩
    exact ⟨r, hr, by simp [hid]⟩

lemma lookup_logSelection {log : List (String × CandidateItem)} {d : String}
    {c : List CandidateItem} {l : Ledger} {i : CandidateItem}
    (h : selectWithLog log d c l = some i) :
    (logSelection log d i).lookup d = some i := by
  unfold selectWithLog logSelection at *
  cases hl : log.lookup d with
  | some j =>
    rw [hl] at h
    simp only [Option.some.injEq] at h
    simp [hl, h]
  | none =>
    rw [hl] at h
    simp [hl, List.lookup]

lemma selectWithLog_of_lookup {log : List (String × CandidateItem)} {d : String}
    (c : List CandidateItem) (l : Ledger) {i : CandidateItem}
    (h : log.lookup d = some i) : selectWithLog log d c l = some i := by
  unfold selectWithLog
  rw [h]

lemma driverRun_no_catalog {env : RunEnv} {s : DriverState}
    (h0 : driverCatalog env s = []) :
    driverRun env s =
      ({ outcome := .failed .fetching, fetchWarning := env.fetchResult.isNone,
         catalogUsed := driverCatalog env s, selected := none, articlePath := none,
         markExecuted := false, publishCalled := false },
       { s with cache := env.fetchResult.or s.cache }) := by
  unfold driverRun
  rw [if_pos (by simp [h0])]

lemma driverRun_sel_none {env : RunEnv} {s : DriverState}
    (h0 : driverCatalog env s ≠ [])
    (hsel : selectWithLog s.selLog env.date (driverCatalog env s) s.ledger = none) :
    driverRun env s =
      ({ outcome := .failed .selecting, fetchWarning := env.fetchResult.isNone,
         catalogUsed := driverCatalog env s, selected := none, articlePath := none,
         markExecuted := false, publishCalled := false },
       { s with cache := env.fetchResult.or s.cache }) := by
  unfold driverRun
  rw [if_neg (by simp [List.length_eq_zero, h0]), hsel]

lemma driverRun_gen_true {env : RunEnv} {s : DriverState} {i : CandidateItem}
    (h0 : driverCatalog env s ≠ [])
    (hsel : selectWithLog s.selLog env.date (driverCatalog env s) s.ledger = some i)
    (hgen : env.genOk = true) :
    driverRun env s =
      ({ outcome := .success, fetchWarning := env.fetchResult.isNone,
         catalogUsed := driverCatalog env s, selected := some i,
         articlePath := some (articleFileName env.date i.name), markExecuted := true,
         publishCalled := env.publishAvailable },
       { cache := env.fetchResult.or s.cache,
         ledger := markPublished s.ledger i.identity i.category env.date,
         selLog := logSelection s.selLog env.date i }) := by
  unfold driverRun
  rw [if_neg (by simp [List.length_eq_zero, h0]), hsel, hgen]
  simp

lemma driverRun_gen_false {env : RunEnv} {s : DriverState} {i : CandidateItem}
    (h0 : driverCatalog env s ≠ [])
    (hsel : selectWithLog s.selLog env.date (driverCatalog env s) s.ledger = some i)
    (hgen : env.genOk = false) :
    driverRun env s =
      ({ outcome := .failed .generating, fetchWarning := env.fetchResult.isNone,
         catalogUsed := driverCatalog env s, selected := some i, articlePath := none,
         markExecuted := false, publishCalled := false },
       { cache := env.fetchResult.or s.cache, ledger := s.ledger,
         selLog := logSelection s.selLog env.date i }) := by
  unfold driverRun
  rw [if_neg (by simp [List.length_eq_zero, h0]), hsel, hgen]
  simp

lemma driverRun_selected_inv {env : RunEnv} {s : DriverState} {i : CandidateItem}
    (h : (driverRun env s).1.selected = some i) :
    driverCatalog env s ≠ [] ∧
      selectWithLog s.selLog env.date (driverCatalog env s) s.ledger = some i := by
  by_cases h0 : driverCatalog env s = []
  · rw [driverRun_no_catalog h0] at h
    simp at h
  · cases hsel : selectWithLog s.selLog env.date (driverCatalog env s) s.ledger with
    | none =>
      rw [driverRun_sel_none h0 hsel] at h
      simp at h
    | some j =>
      cases hgen : env.genOk with
      | true =>
        rw [driverRun_gen_true h0 hsel hgen] at h
        simp only [Option.some.injEq] at h
        subst h
        exact ⟨h0, rfl⟩
      | false =>
        rw [driverRun_gen_false h0 hsel hgen] at h
        simp only [Option.some.injEq] at h
        subst h
        exact ⟨h0, rfl⟩

lemma driverRun_preserves_unique {env : RunEnv} {s : DriverState}
    (h : uniqueLedger s.ledger) : uniqueLedger (driverRun env s).2.ledger := by
  by_cases h0 : driverCatalog env s = []
  · rw [driverRun_no_catalog h0]
    exact h
  · cases hsel : selectWithLog s.selLog env.date (driverCatalog env s) s.ledger with
    | none =>
      rw [driverRun_sel_none h0 hsel]
      exact h
    | some j =>
      cases hgen : env.genOk with
      | true =>
        rw [driverRun_gen_true h0 hsel hgen]
        exact markPublished_unique h _ _ _
      | false =>
        rw [driverRun_gen_false h0 hsel hgen]
        exact h

/-- C5: for every date, catalog snapshot and ledger state, two invocations
of `selectForDate` with identical inputs return identical output — the
selection is a pure deterministic function of (date, catalog snapshot,
ledger snapshot): it depends only on the snapshot (equal dates, equal
ledgers, and catalogs listing the same items with unique identities in any
order give the same selection). -/
theorem selectForDate_deterministic (d d' : String) (c c' : List CandidateItem)
    (l l' : Ledger) (hd : d = d') (hl : l = l') (hc : c.Perm c') (hnd : nodupIds c) :
    selectForDate d c l = selectForDate d' c' l' := by
  subst hd
  subst hl
  unfold selectForDate
  exact selectBest_perm (hc.filter _) (nodupIds_filter _ hnd)

/-- C5 witness: the determinism theorem applied to a concrete date, a
concrete two-item catalog given in both orders, and the empty ledger. -/
theorem selectForDate_deterministic_witness :
    List.Perm [skillAlpha, skillPub] [skillPub, skillAlpha] ∧
      selectForDate "2026-01-02" [skillAlpha, skillPub] [] =
        selectForDate "2026-01-02" [skillPub, skillAlpha] [] :=
  ⟨by decide,
   selectForDate_deterministic "2026-01-02" "2026-01-02" [skillAlpha, skillPub]
     [skillPub, skillAlpha] [] [] rfl rfl (by decide) (by decide)⟩

/-- C6: an item whose identity already has a record in the ledger is never
returned by the Selector, for any catalog content and date (hard exclusion
of previously published identities). -/
theorem published_identity_never_selected (d : String) (catalog : List CandidateItem)
    (ledger : Ledger) (i : CandidateItem)
    (h : ledgerContains ledger i.identity = true) :
    selectForDate d catalog ledger ≠ some i := by
  intro hsel
  have hmem : i ∈ catalog.filter (eligibleItem ledger) := selectBest_mem hsel
  have hel := List.of_mem_filter hmem
  simp [eligibleItem, h] at hel

/-- C6 witness: the exclusion theorem applied to `skillAlpha`, whose
identity is recorded in `ledgerAlpha`. -/
theorem published_identity_never_selected_witness :
    ledgerContains ledgerAlpha skillAlpha.identity = true ∧
      selectForDate "2026-01-02" [skillAlpha] ledgerAlpha ≠ some skillAlpha :=
  ⟨by decide,
   published_identity_never_selected "2026-01-02" [skillAlpha] ledgerAlpha skillAlpha
     (by decide)⟩

/-- C7: `markPublished` is idempotent — with an identity that already has
a record it is a no-op leaving the ledger unchanged, a second call for the
same identity never adds a duplicate entry, and the at-most-one-record-
per-identity invariant is preserved. -/
theorem markPublished_idempotent (l : Ledger) (id cat date cat2 date2 : String) :
    (ledgerContains l id = true → markPublished l id cat date = l) ∧
    markPublished (markPublished l id cat date) id cat2 date2 = markPublished l id cat date ∧
    (uniqueLedger l → uniqueLedger (markPublished l id cat date)) :=
  ⟨fun h => markPublished_noop h cat date,
   markPublished_noop (ledgerContains_markPublished l id cat date) cat2 date2,
   fun h => markPublished_unique h id cat date⟩

/-- C7 witness: the idempotency theorem applied to a concrete ledger
already holding a record for the identity being marked. -/
theorem markPublished_idempotent_witness :
    ledgerContains ledgerAlpha "https://github.com/x/alpha" = true ∧
      markPublished ledgerAlpha "https://github.com/x/alpha" "tools" "2026-01-02" =
        ledgerAlpha ∧
      uniqueLedger (markPublished ledgerAlpha "https://github.com/x/alpha" "tools"
        "2026-01-02") :=
  ⟨by decide,
   (markPublished_idempotent ledgerAlpha "https://github.com/x/alpha" "tools" "2026-01-02"
     "tools" "2026-01-03").1 (by decide),
   (markPublished_idempotent ledgerAlpha "https://github.com/x/alpha" "tools" "2026-01-02"
     "tools" "2026-01-03").2.2 (by decide)⟩

lemma driverRun_selected_of {env : RunEnv} {s : DriverState} {i : CandidateItem}
    (h0 : driverCatalog env s ≠ [])
    (hsel : selectWithLog s.selLog env.date (driverCatalog env s) s.ledger = some i) :
    (driverRun env s).1.selected = some i := by
  cases hgen : env.genOk with
  | true => rw [driverRun_gen_true h0 hsel hgen]
  | false => rw [driverRun_gen_false h0 hsel hgen]

lemma driverRun_articlePath {env : RunEnv} {s : DriverState} {i : CandidateItem} {p : String}
    (hsel : (driverRun env s).1.selected = some i)
    (hp : (driverRun env s).1.articlePath = some p) :
    p = articleFileName env.date i.name := by
  obtain ⟨h0, hsel'⟩ := driverRun_selected_inv hsel
  cases hgen : env.genOk with
  | true =>
    rw [driverRun_gen_true h0 hsel' hgen] at hp
    simp only [Option.some.injEq] at hp
    exact hp.symm
  | false =>
    rw [driverRun_gen_false h0 hsel' hgen] at hp
    simp at hp

/-- C1 counterexample: a concrete run in which article generation succeeds
and the WeChat publish step fails, yet the driver has already marked the
item published (Step 4 precedes Step 5), so a ledger entry IS written —
refuting the claim that no ledger entry is written on publish failure. -/
theorem publish_failure_marks_counterexample :
    envPubFail.genOk = true ∧ envPubFail.publishOk = false ∧
    (driverRun envPubFail emptyState).1.publishCalled = true ∧
    (driverRun envPubFail emptyState).1.markExecuted = true ∧
    ledgerContains (driverRun envPubFail emptyState).2.ledger skillAlpha.identity = true := by
  decide

/-- C1 (amended): whenever article generation succeeds, the driver marks
the selected item published before the publish step and regardless of the
publish outcome, and the run exits successfully; no duplicate ledger entry
is ever created because every driver run preserves the at-most-one-record-
per-identity invariant. -/
theorem generation_success_marks_regardless_of_publish (env : RunEnv) (s : DriverState)
    (i : CandidateItem) (hsel : (driverRun env s).1.selected = some i)
    (hgen : env.genOk = true) :
    (driverRun env s).1.outcome = .success ∧
    (driverRun env s).1.markExecuted = true ∧
    ledgerContains (driverRun env s).2.ledger i.identity = true ∧
    (∀ env2 s2, uniqueLedger s2.ledger → uniqueLedger (driverRun env2 s2).2.ledger) := by
  obtain ⟨h0, hsel'⟩ := driverRun_selected_inv hsel
  rw [driverRun_gen_true h0 hsel' hgen]
  exact ⟨rfl, rfl, ledgerContains_markPublished _ _ _ _,
    fun env2 s2 h => driverRun_preserves_unique h⟩

/-- C1 witness: the amended theorem applied to the concrete
publish-failure run. -/
theorem generation_success_marks_regardless_of_publish_witness :
    (driverRun envPubFail emptyState).1.selected = some skillAlpha ∧
    (driverRun envPubFail emptyState).1.markExecuted = true ∧
    ledgerContains (driverRun envPubFail emptyState).2.ledger skillAlpha.identity = true :=
  ⟨by decide,
   (generation_success_marks_regardless_of_publish envPubFail emptyState skillAlpha
     (by decide) rfl).2.1,
   (generation_success_marks_regardless_of_publish envPubFail emptyState skillAlpha
     (by decide) rfl).2.2.1⟩

/-- C2 counterexample: a concrete run whose catalog holds only an
already-published skill, so the Selector yields no eligible item — the
driver exits 1 at the selection step (`Error: Failed to select skill`),
refuting the claim that such a run terminates as a success; it does
produce no article and makes no publish call. -/
theorem no_eligible_failure_counterexample :
    selectWithLog statePub.selLog envNoEligible.date (driverCatalog envNoEligible statePub)
        statePub.ledger = none ∧
    (driverRun envNoEligible statePub).1.outcome ≠ .success ∧
    (driverRun envNoEligible statePub).1.outcome = .failed .selecting ∧
    (driverRun envNoEligible statePub).1.articlePath = none ∧
    (driverRun envNoEligible statePub).1.publishCalled = false := by
  decide

/-- C2 (amended): when the Selector yields no eligible item, the driver
terminates with exit status 1 (a selection-stage failure, not a success),
while still producing no article, executing no mark-published, making no
publish call, and leaving the ledger unchanged. -/
theorem no_eligible_item_run_fails (env : RunEnv) (s : DriverState)
    (h0 : driverCatalog env s ≠ [])
    (hsel : selectWithLog s.selLog env.date (driverCatalog env s) s.ledger = none) :
    (driverRun env s).1.outcome = .failed .selecting ∧
    (driverRun env s).1.selected = none ∧
    (driverRun env s).1.articlePath = none ∧
    (driverRun env s).1.markExecuted = false ∧
    (driverRun env s).1.publishCalled = false ∧
    (driverRun env s).2.ledger = s.ledger := by
  rw [driverRun_sel_none h0 hsel]
  exact ⟨rfl, rfl, rfl, rfl, rfl, rfl⟩

/-- C2 witness: the amended theorem applied to the concrete
no-eligible-item run. -/
theorem no_eligible_item_run_fails_witness :
    driverCatalog envNoEligible statePub ≠ [] ∧
    (driverRun envNoEligible statePub).1.outcome = .failed .selecting :=
  ⟨by decide,
   (no_eligible_item_run_fails envNoEligible statePub (by decide) (by decide)).1⟩

/-- C3: when article generation fails, the run terminates as failed at the
generation stage, mark-published is never executed (the ledger is
unchanged), and a subsequent run on the same calendar date selects the
identical item again (via the per-date selection log of the re-entry
rule). -/
theorem generation_failure_idempotent_retry (env1 env2 : RunEnv) (s : DriverState)
    (i : CandidateItem)
    (hsel : (driverRun env1 s).1.selected = some i)
    (hgen : env1.genOk = false)
    (hdate : env2.date = env1.date)
    (hcat : driverCatalog env2 (driverRun env1 s).2 ≠ []) :
    (driverRun env1 s).1.outcome = .failed .generating ∧
    (driverRun env1 s).1.markExecuted = false ∧
    (driverRun env1 s).2.ledger = s.ledger ∧
    (driverRun env2 (driverRun env1 s).2).1.selected = some i := by
  obtain ⟨h0, hsel'⟩ := driverRun_selected_inv hsel
  have he := driverRun_gen_false h0 hsel' hgen
  refine ⟨by rw [he], by rw [he], by rw [he], ?_⟩
  have hlog : ((driverRun env1 s).2.selLog).lookup env2.date = some i := by
    rw [he, hdate]
    exact lookup_logSelection hsel'
  exact driverRun_selected_of hcat (selectWithLog_of_lookup _ _ hlog)

/-- C3 witness: the retry theorem applied to a concrete generation-failure
run followed by a retry run on the same date. -/
theorem generation_failure_idempotent_retry_witness :
    envGenFail.genOk = false ∧
    (driverRun envGenFail emptyState).1.outcome = .failed .generating ∧
    (driverRun envRetry (driverRun envGenFail emptyState).2).1.selected = some skillAlpha :=
  ⟨rfl,
   (generation_failure_idempotent_retry envGenFail envRetry emptyState skillAlpha
     (by decide) rfl rfl (by decide)).1,
   (generation_failure_idempotent_retry envGenFail envRetry emptyState skillAlpha
     (by decide) rfl rfl (by decide)).2.2.2⟩

/-- C4: a fetch failure is non-fatal when a usable cached catalog with at
least one item exists — the run logs a warning, proceeds on the cached
catalog, and never fails at the fetching stage — and is fatal (the run
terminates as failed at the fetching stage) when no such cached catalog
exists. -/
theorem fetch_failure_fallback_policy (env : RunEnv) (s : DriverState)
    (hf : env.fetchResult = none) :
    (∀ c, s.cache = some c → c ≠ [] →
      (driverRun env s).1.fetchWarning = true ∧
      (driverRun env s).1.catalogUsed = c ∧
      (driverRun env s).1.outcome ≠ .failed .fetching) ∧
    ((s.cache = none ∨ s.cache = some []) →
      (driverRun env s).1.outcome = .failed .fetching) := by
  constructor
  · intro c hc hcne
    have hcat : driverCatalog env s = c := by
      simp [driverCatalog, hf, hc]
    have h0 : driverCatalog env s ≠ [] := by
      rw [hcat]
      exact hcne
    have hwarn : env.fetchResult.isNone = true := by
      rw [hf]
      rfl
    cases hsel : selectWithLog s.selLog env.date (driverCatalog env s) s.ledger with
    | none =>
      rw [driverRun_sel_none h0 hsel]
      exact ⟨hwarn, hcat, fun h => Stage.noConfusion (Outcome.failed.inj h)⟩
    | some j =>
      cases hgen : env.genOk with
      | true =>
        rw [driverRun_gen_true h0 hsel hgen]
        exact ⟨hwarn, hcat, fun h => Outcome.noConfusion h⟩
      | false =>
        rw [driverRun_gen_false h0 hsel hgen]
        exact ⟨hwarn, hcat, fun h => Stage.noConfusion (Outcome.failed.inj h)⟩
  · intro hcases
    have hcat : driverCatalog env s = [] := by
      rcases hcases with h | h <;> simp [driverCatalog, hf, h]
    rw [driverRun_no_catalog hcat]

/-- C4 witness: the fallback theorem applied to a concrete fetch-failure
run over a nonempty cached catalog. -/
theorem fetch_failure_fallback_policy_witness :
    envFetchFail.fetchResult = none ∧
    (driverRun envFetchFail stateCached).1.fetchWarning = true ∧
    (driverRun envFetchFail stateCached).1.outcome ≠ .failed .fetching :=
  ⟨rfl,
   ((fetch_failure_fallback_policy envFetchFail stateCached rfl).1 [skillAlpha] rfl
     (by decide)).1,
   ((fetch_failure_fallback_policy envFetchFail stateCached rfl).1 [skillAlpha] rfl
     (by decide)).2.2⟩

/-- C8 counterexample: two concrete runs on the same date select the same
repository identity under different display names and write DIFFERENT
artifact paths — the artifact name is keyed by the sanitized skill name,
not by the item's identity, refuting "named deterministically by date and
item identity". -/
theorem artifact_not_keyed_by_identity_counterexample :
    envNameA.date = envNameB.date ∧
    (driverRun envNameA emptyState).1.selected = some skillAlpha ∧
    (driverRun envNameB emptyState).1.selected = some skillRenamed ∧
    skillAlpha.identity = skillRenamed.identity ∧
    (driverRun envNameA emptyState).1.articlePath ≠
      (driverRun envNameB emptyState).1.articlePath := by
  decide

/-- C8 (amended): the artifact is named deterministically by the calendar
date and the selected item's sanitized NAME: any two runs on the same date
whose selected items bear the same name write the same artifact path. -/
theorem artifact_named_by_date_and_name (env1 env2 : RunEnv) (s1 s2 : DriverState)
    (i1 i2 : CandidateItem) (p1 p2 : String)
    (hd : env1.date = env2.date)
    (h1 : (driverRun env1 s1).1.selected = some i1)
    (h2 : (driverRun env2 s2).1.selected = some i2)
    (hn : i1.name = i2.name)
    (hp1 : (driverRun env1 s1).1.articlePath = some p1)
    (hp2 : (driverRun env2 s2).1.articlePath = some p2) :
    p1 = p2 := by
  rw [driverRun_articlePath h1 hp1, driverRun_articlePath h2 hp2, hd, hn]

/-- C8 witness: the amended theorem applied to two concrete same-date runs
selecting the same item. -/
theorem artifact_named_by_date_and_name_witness :
    (driverRun envNameA emptyState).1.articlePath =
        some (articleFileName "2026-01-02" "alpha") ∧
    (driverRun envPubFail emptyState).1.articlePath =
        some (articleFileName "2026-01-02" "alpha") ∧
    articleFileName "2026-01-02" "alpha" = articleFileName "2026-01-02" "alpha" :=
  ⟨by decide, by decide,
   artifact_named_by_date_and_name envNameA envPubFail emptyState emptyState
     skillAlpha skillAlpha (articleFileName "2026-01-02" "alpha")
     (articleFileName "2026-01-02" "alpha") rfl (by decide) (by decide) rfl
     (by decide) (by decide)⟩

lemma triggerWorkflow_request_of_token {tok : String} (net : Option String) (st : Nat)
    (txt : String) :
    (triggerWorkflow ⟨some tok, net, st, txt⟩).2 =
      some ⟨"lairulan/skill-digest", "daily-skill-digest", tok⟩ := by
  unfold triggerWorkflow
  cases net with
  | some m => rfl
  | none =>
    by_cases hst : st = 204
    · simp [hst]
    · simp [hst]

/-- C9: the time-based trigger and the manual `/trigger` HTTP path invoke
the identical operation — the `fetch` handler on `/trigger` returns
exactly the `scheduled` handler's trigger result and issues the same
request, and any request issued is a repository-dispatch to
`lairulan/skill-digest` with event type `daily-skill-digest`. -/
theorem trigger_paths_identical (env : WorkerEnv) :
    fetchHandler "/trigger" env =
      (FetchResponse.triggered (scheduledHandler env).1, (scheduledHandler env).2) ∧
    (∀ r : DispatchRequest, (scheduledHandler env).2 = some r →
      r.repo = "lairulan/skill-digest" ∧ r.eventType = "daily-skill-digest") := by
  obtain ⟨tok, net, st, txt⟩ := env
  constructor
  · unfold fetchHandler scheduledHandler
    rw [if_pos rfl]
  · intro r hr
    unfold scheduledHandler at hr
    cases tok with
    | none =>
      unfold triggerWorkflow at hr
      simp at hr
    | some t =>
      rw [triggerWorkflow_request_of_token net st txt] at hr
      simp only [Option.some.injEq] at hr
      rw [← hr]
      exact ⟨rfl, rfl⟩

/-- C9 witness: the theorem applied to a concrete environment holding a
token, where a request is issued. -/
theorem trigger_paths_identical_witness :
    (scheduledHandler workerEnvOk).2 =
        some ⟨"lairulan/skill-digest", "daily-skill-digest", "tok"⟩ ∧
    DispatchRequest.repo ⟨"lairulan/skill-digest", "daily-skill-digest", "tok"⟩ =
        "lairulan/skill-digest" ∧
    DispatchRequest.eventType ⟨"lairulan/skill-digest", "daily-skill-digest", "tok"⟩ =
        "daily-skill-digest" :=
  ⟨rfl,
   ((trigger_paths_identical workerEnvOk).2 _ rfl).1,
   ((trigger_paths_identical workerEnvOk).2 _ rfl).2⟩

/-- C10: `triggerWorkflow` is total over its outcomes — it returns success
exactly when a token is configured, the network call does not throw, and
the GitHub API answers HTTP 204; and with no `GITHUB_TOKEN` it returns a
failure result without issuing any network request. -/
theorem triggerWorkflow_total_outcomes (env : WorkerEnv) :
    ((triggerWorkflow env).1.success = true ↔
      (env.githubToken ≠ none ∧ env.netThrows = none ∧ env.respStatus = 204)) ∧
    (env.githubToken = none →
      (triggerWorkflow env).1.success = false ∧ (triggerWorkflow env).2 = none) := by
  obtain ⟨tok, net, st, txt⟩ := env
  cases tok with
  | none =>
    refine ⟨?_, fun _ => ⟨rfl, rfl⟩⟩
    simp [triggerWorkflow]
  | some t =>
    refine ⟨?_, fun h => Option.noConfusion h⟩
    cases net with
    | some m => simp [triggerWorkflow]
    | none =>
      by_cases hst : st = 204
      · simp [triggerWorkflow, hst]
      · simp [triggerWorkflow, hst]

/-- C10 witness: the theorem applied to the concrete tokenless
environment. -/
theorem triggerWorkflow_total_outcomes_witness :
    workerEnvNoToken.githubToken = none ∧
    (triggerWorkflow workerEnvNoToken).1.success = false ∧
    (triggerWorkflow workerEnvNoToken).2 = none :=
  ⟨rfl,
   ((triggerWorkflow_total_outcomes workerEnvNoToken).2 rfl).1,
   ((triggerWorkflow_total_outcomes workerEnvNoToken).2 rfl).2⟩
